import Mathlib

/-!
Verification of the openclaw-docker device-pairing core.

This file shallowly embeds the pure logic of the repository:

* `scripts/lib/device-pairing.ts` (the shared pairing library:
  `isValidId`, `uniqSortedStrings`, `mergeRoles`, `mergeScopes`,
  `approvePairing`),
* the poll-tick logic of the two copies of the self-approval daemon
  (`auto-approve-self-pairing.ts`), and
* the pure sync logic of `scripts/bootstrap/watch-codex-auth.ts`
  (`buildProfile`, `profilesEqual`, `syncOnce`).

Modelling conventions:

* JavaScript objects used as string-keyed maps (`Record<string, T>`) become
  association lists `Rec T`; `recGet`, `recInsert`, `recErase` mirror
  property lookup, `{ ...obj, [k]: v }` spread-update (replace in place or
  append), and rest-spread / `delete` removal.  JSON object keys are unique,
  so the list models carry no duplicate keys in practice.
* `Date.now()` and `crypto.randomBytes(32).toString("base64url")` are
  impure; the embedding passes the observed time `now : Nat` and the freshly
  generated token string explicitly.
* A JSON value that may or may not be a string (the defensive
  `typeof v === "string"` checks in the source) is modelled by `JStr`:
  either a string or an opaque non-string value.
* `jsTrim` models `String.prototype.trim` (for the ASCII whitespace the
  repository's identifiers can contain).
-/

/-- A JSON value read from disk where the source only distinguishes
"a string" from "anything else" (`typeof v === "string"`). -/
inductive JStr where
  | str : String → JStr
  | nonstr : JStr
deriving DecidableEq

/-- JavaScript truthiness of such a value as the source uses it in
`if (x) merged.push(x)`: a string is truthy iff non-empty.  A non-string
is taken as truthy; a falsy non-string would simply not be pushed, and
`uniqSortedStrings` discards pushed non-strings anyway, so this choice
never changes any observable result. -/
def jstrTruthy : JStr → Bool
  | JStr.str s => decide (s ≠ "")
  | JStr.nonstr => true

/-- Model of `String.prototype.trim`: strip leading and trailing whitespace. -/
def jsTrim (s : String) : String :=
  ⟨((s.data.dropWhile Char.isWhitespace).reverse.dropWhile Char.isWhitespace).reverse⟩

/-- One character of the safe identifier set `[a-zA-Z0-9_\-:.]`. -/
def isSafeChar (c : Char) : Bool :=
  c.isAlpha || c.isDigit || c = '_' || c = '-' || c = ':' || c = '.'

/-- Model of `isValidId` of `device-pairing.ts`: the regex `^[a-zA-Z0-9_\-:.]+$`,
i.e. non-empty and every character in the safe set. -/
def isValidId (value : String) : Bool :=
  !value.data.isEmpty && value.data.all isSafeChar

/-- Lexicographic comparison of character lists by code point, the order
`Array.prototype.sort()` uses on the identifier strings this repository
produces. -/
def charListLe : List Char → List Char → Bool
  | [], _ => true
  | _ :: _, [] => false
  | a :: as, b :: bs =>
    if a.toNat < b.toNat then true
    else if b.toNat < a.toNat then false
    else charListLe as bs

/-- The default javascript sort order on strings. -/
def strLe (a b : String) : Bool :=
  charListLe a.data b.data

/-- The relation form of `strLe`, for the sorting lemmas. -/
abbrev strLeRel (a b : String) : Prop := strLe a b = true

theorem charListLe_total (as bs : List Char) :
    charListLe as bs = true ∨ charListLe bs as = true := by
  induction as generalizing bs with
  | nil => exact Or.inl rfl
  | cons a as ih =>
    cases bs with
    | nil => exact Or.inr rfl
    | cons b bs =>
      by_cases h1 : a.toNat < b.toNat
      · left; simp [charListLe, h1]
      · by_cases h2 : b.toNat < a.toNat
        · right; simp [charListLe, h2]
        · rcases ih bs with h | h
          · left; simp [charListLe, h1, h2, h]
          · right; simp [charListLe, h1, h2, h]

theorem charListLe_trans (as bs cs : List Char)
    (h1 : charListLe as bs = true) (h2 : charListLe bs cs = true) :
    charListLe as cs = true := by
  induction as generalizing bs cs with
  | nil => rfl
  | cons a as ih =>
    cases bs with
    | nil => simp [charListLe] at h1
    | cons b bs =>
      cases cs with
      | nil => simp [charListLe] at h2
      | cons c cs =>
        by_cases hab : a.toNat < b.toNat
        · by_cases hbc : b.toNat < c.toNat
          · have hac : a.toNat < c.toNat := by omega
            simp [charListLe, hac]
          · by_cases hcb : c.toNat < b.toNat
            · simp [charListLe, hbc, hcb] at h2
            · have hac : a.toNat < c.toNat := by omega
              simp [charListLe, hac]
        · by_cases hba : b.toNat < a.toNat
          · simp [charListLe, hab, hba] at h1
          · by_cases hbc : b.toNat < c.toNat
            · have hac : a.toNat < c.toNat := by omega
              simp [charListLe, hac]
            · by_cases hcb : c.toNat < b.toNat
              · simp [charListLe, hbc, hcb] at h2
              · have h1' : charListLe as bs = true := by
                  simpa [charListLe, hab, hba] using h1
                have h2' : charListLe bs cs = true := by
                  simpa [charListLe, hbc, hcb] using h2
                have hac1 : ¬ a.toNat < c.toNat := by omega
                have hac2 : ¬ c.toNat < a.toNat := by omega
                simp [charListLe, hac1, hac2, ih bs cs h1' h2']

theorem charListLe_antisymm (as bs : List Char)
    (h1 : charListLe as bs = true) (h2 : charListLe bs as = true) :
    as = bs := by
  induction as generalizing bs with
  | nil =>
    cases bs with
    | nil => rfl
    | cons b bs => simp [charListLe] at h2
  | cons a as ih =>
    cases bs with
    | nil => simp [charListLe] at h1
    | cons b bs =>
      by_cases hab : a.toNat < b.toNat
      · have hba : ¬ b.toNat < a.toNat := by omega
        simp [charListLe, hab, hba] at h2
      · by_cases hba : b.toNat < a.toNat
        · simp [charListLe, hab, hba] at h1
        · have hn : a.toNat = b.toNat := by omega
          have hchar : a = b := Char.eq_of_val_eq (UInt32.ext hn)
          have h1' : charListLe as bs = true := by
            simpa [charListLe, hab, hba] using h1
          have h2' : charListLe bs as = true := by
            simpa [charListLe, hab, hba] using h2
          rw [hchar, ih bs h1' h2']

instance : IsTotal String strLeRel :=
  ⟨fun a b => charListLe_total a.data b.data⟩

instance : IsTrans String strLeRel :=
  ⟨fun a b c => charListLe_trans a.data b.data c.data⟩

instance : IsAntisymm String strLeRel :=
  ⟨fun a b h1 h2 => by
    cases a with
    | mk da =>
      cases b with
      | mk db => exact congrArg String.mk (charListLe_antisymm da db h1 h2)⟩

/-- What one loop iteration of `uniqSortedStrings` keeps of an entry:
non-strings are skipped, strings are trimmed, blanks are dropped. -/
def trimmedEntry : JStr → Option String
  | JStr.str s => if jsTrim s = "" then none else some (jsTrim s)
  | JStr.nonstr => none

/-- Model of `uniqSortedStrings` of `device-pairing.ts`: skip non-strings, trim each
entry, drop blanks, deduplicate (the `Set`), and sort lexicographically. -/
def uniqSortedStrings (items : List JStr) : List String :=
  List.insertionSort strLeRel (items.filterMap trimmedEntry).dedup

/-- A string-keyed JavaScript object (`Record<string, T>`), as an ordered
association list. -/
abbrev Rec (α : Type) : Type := List (String × α)

/-- Property lookup `obj[k]` (`undefined` becomes `none`). -/
def recGet {α : Type} : Rec α → String → Option α
  | [], _ => none
  | (k', v) :: rest, k => if k' = k then some v else recGet rest k

/-- Spread-update `{ ...obj, [k]: v }`: replace the entry for `k` in place, or append a
new one. -/
def recInsert {α : Type} : Rec α → String → α → Rec α
  | [], k, v => [(k, v)]
  | (k', v') :: rest, k, v =>
    if k' = k then (k, v) :: rest else (k', v') :: recInsert rest k v

/-- Removal of key `k` (`const { [k]: _, ...rest } = obj` or `delete obj[k]`). -/
def recErase {α : Type} : Rec α → String → Rec α
  | [], _ => []
  | (k', v) :: rest, k =>
    if k' = k then recErase rest k else (k', v) :: recErase rest k

/-- Truthiness of `obj[k]` when the values are objects: present or not. -/
def recHas {α : Type} (r : Rec α) (k : String) : Bool :=
  match recGet r k with
  | some _ => true
  | none => false

/-- The keys in order, `Object.keys(obj)`. -/
def recKeys {α : Type} (r : Rec α) : List String :=
  r.map Prod.fst

/-- Model of `PendingRequest` of `device-pairing.ts`.  Fields that javascript code
guards with `?? `/`typeof` checks are `Option`s; `role` may be a non-string
JSON value, which the source tolerates. -/
structure PendingRequest where
  requestId : String
  deviceId : Option String := none
  publicKey : Option String := none
  displayName : Option String := none
  platform : Option String := none
  clientId : Option String := none
  clientMode : Option String := none
  role : Option JStr := none
  roles : Option (List JStr) := none
  scopes : Option (List JStr) := none
  remoteIp : Option String := none
  silent : Option Bool := none
  isRepair : Option Bool := none
  ts : Nat := 0
deriving DecidableEq

/-- Model of `DeviceToken` of `device-pairing.ts`. -/
structure DeviceToken where
  token : String
  role : String
  scopes : List String
  createdAtMs : Nat
  rotatedAtMs : Option Nat := none
  revokedAtMs : Option Nat := none
  lastUsedAtMs : Option Nat := none
deriving DecidableEq

/-- Model of `PairedDevice` of `device-pairing.ts`. -/
structure PairedDevice where
  deviceId : String
  publicKey : Option String := none
  displayName : Option String := none
  platform : Option String := none
  clientId : Option String := none
  clientMode : Option String := none
  role : Option JStr := none
  roles : Option (List JStr) := none
  scopes : Option (List JStr) := none
  remoteIp : Option String := none
  tokens : Option (Rec DeviceToken) := none
  createdAtMs : Nat
  approvedAtMs : Nat
deriving DecidableEq

/-- Model of `ApprovalResult` of `device-pairing.ts`. -/
structure ApprovalResult where
  deviceId : String
  updatedPendingById : Rec PendingRequest
  updatedPairedByDeviceId : Rec PairedDevice
deriving DecidableEq

/-- The distinct `throw new Error(...)` sites of `approvePairing`. -/
inductive ApproveError where
  | notFound
  | missingDeviceId
  | invalidDeviceIdFormat
  | invalidRoleFormat
deriving DecidableEq

/-- The spec's error taxonomy groups every malformed-request failure (blank
device id, bad device id, bad role) as `InvalidRequest`; only a missing
request id is `NotFound`. -/
def ApproveError.isInvalidRequest : ApproveError → Bool
  | ApproveError.notFound => false
  | _ => true

/-- The `merged` array `mergeRoles` pushes onto: the existing device's role
list, its truthy singular role, the request's role list, and the request's
truthy singular role, in that order. -/
def roleSources (existing : Option PairedDevice) (pending : PendingRequest) :
    List JStr :=
  (match existing with
    | some e => e.roles.getD []
    | none => [])
  ++ (match existing with
    | some e =>
      match e.role with
      | some r => if jstrTruthy r then [r] else []
      | none => []
    | none => [])
  ++ pending.roles.getD []
  ++ (match pending.role with
    | some r => if jstrTruthy r then [r] else []
    | none => [])

/-- Model of `mergeRoles` of `device-pairing.ts`: `uniqSortedStrings` over the
pushed role sources; an empty result becomes `undefined`. -/
def mergeRoles (existing : Option PairedDevice) (pending : PendingRequest) :
    Option (List String) :=
  if (uniqSortedStrings (roleSources existing pending)).isEmpty then none
  else some (uniqSortedStrings (roleSources existing pending))

/-- The `merged` array `mergeScopes` pushes onto: the existing device's
scopes then the request's scopes. -/
def scopeSources (existing : Option PairedDevice) (pending : PendingRequest) :
    List JStr :=
  (match existing with
    | some e => e.scopes.getD []
    | none => [])
  ++ pending.scopes.getD []

/-- Model of `mergeScopes` of `device-pairing.ts`: union of the existing device's
scopes and the request's scopes, always a (possibly empty) list. -/
def mergeScopes (existing : Option PairedDevice) (pending : PendingRequest) :
    List String :=
  uniqSortedStrings (scopeSources existing pending)

/-- The `roleForToken` computation of `approvePairing`:
`typeof pending.role === "string" ? pending.role.trim() : ""`. -/
def roleForTokenOf (pending : PendingRequest) : String :=
  match pending.role with
  | some (JStr.str s) => jsTrim s
  | _ => ""

/-- The token map the approval stores: when the request carries a usable
role, rotate that role's token (fresh value, preserved creation time,
rotation stamp only on an actual rotation, revocation cleared, last-use
carried); otherwise carry the existing map forward unmodified. -/
def approveTokens (existing : Option PairedDevice) (pending : PendingRequest)
    (now : Nat) (freshToken : String) : Rec DeviceToken :=
  let existingTokens : Rec DeviceToken :=
    match existing with
    | some e => e.tokens.getD []
    | none => []
  let roleForToken := roleForTokenOf pending
  if roleForToken = "" then existingTokens
  else
    let prior := recGet existingTokens roleForToken
    recInsert existingTokens roleForToken
      { token := freshToken
        role := roleForToken
        scopes := uniqSortedStrings (pending.scopes.getD [])
        createdAtMs := (prior.map DeviceToken.createdAtMs).getD now
        rotatedAtMs :=
          match prior with
          | some _ => some now
          | none => none
        revokedAtMs := none
        lastUsedAtMs := prior.bind DeviceToken.lastUsedAtMs }

/-- The `device: PairedDevice` record `approvePairing` builds: descriptive
metadata from the request, merged roles/scopes, the rotated token map, the
existing creation time (or `now` for a first pairing), `now` as approval
time.  `mergeRoles`/`mergeScopes` return plain string lists, stored here as
string JSON values. -/
def approvedDevice (existing : Option PairedDevice) (pending : PendingRequest)
    (deviceId : String) (now : Nat) (freshToken : String) : PairedDevice :=
  { deviceId := deviceId
    publicKey := pending.publicKey
    displayName := pending.displayName
    platform := pending.platform
    clientId := pending.clientId
    clientMode := pending.clientMode
    role := pending.role
    roles := (mergeRoles existing pending).map (List.map JStr.str)
    scopes := some ((mergeScopes existing pending).map JStr.str)
    remoteIp := pending.remoteIp
    tokens := some (approveTokens existing pending now freshToken)
    createdAtMs := (existing.map PairedDevice.createdAtMs).getD now
    approvedAtMs := now }

/-- Model of `approvePairing` of `device-pairing.ts`: look the request up, validate
the trimmed device id and trimmed role, build the approved device, and
return the collections with the request removed and the device upserted.
`now` and `freshToken` stand for `Date.now()` and `newToken()`. -/
def approvePairing (pendingById : Rec PendingRequest)
    (pairedByDeviceId : Rec PairedDevice) (requestId : String) (now : Nat)
    (freshToken : String) : Except ApproveError ApprovalResult :=
  match recGet pendingById requestId with
  | none => Except.error ApproveError.notFound
  | some pending =>
    let deviceId := jsTrim (pending.deviceId.getD "")
    if deviceId = "" then Except.error ApproveError.missingDeviceId
    else if isValidId deviceId = false then
      Except.error ApproveError.invalidDeviceIdFormat
    else
      let roleForToken := roleForTokenOf pending
      if roleForToken ≠ "" ∧ isValidId roleForToken = false then
        Except.error ApproveError.invalidRoleFormat
      else
        let existing := recGet pairedByDeviceId deviceId
        Except.ok
          { deviceId := deviceId
            updatedPendingById := recErase pendingById requestId
            updatedPairedByDeviceId :=
              recInsert pairedByDeviceId deviceId
                (approvedDevice existing pending deviceId now freshToken) }

/-- What one poll tick of the self-approval daemon observes: the two store
files as read at the top of the loop body, plus the impure inputs of a
possible approval on this tick. -/
structure DaemonObs where
  paired : Rec PairedDevice
  pending : Rec PendingRequest
  now : Nat
  freshToken : String
deriving DecidableEq

/-- Outcome of one iteration of the daemon's `while` loop body. -/
inductive TickResult where
  | alreadyPaired
  | noMatch
  | approved (requestId : String) (res : ApprovalResult)
  | failed (e : ApproveError)
deriving DecidableEq

/-- The trimmed device id of the request stored under `id`, as the daemon's
scan computes it: `String(pendingById[id]?.deviceId ?? "").trim()`. -/
def scanDeviceId (pending : Rec PendingRequest) (id : String) : String :=
  jsTrim (((recGet pending id).bind PendingRequest.deviceId).getD "")

/-- One loop iteration of the lib-based self-approval daemon
(`main` of the `auto-approve-self-pairing` copy that imports
`device-pairing.ts`): return if our device is already paired, scan the
pending keys for the first request whose trimmed device id equals our own,
re-check it, and hand it to `approvePairing`; an `approvePairing` throw
rejects `main`'s promise. -/
def selfPairingTick (selfDeviceId : String) (obs : DaemonObs) : TickResult :=
  if recHas obs.paired selfDeviceId then TickResult.alreadyPaired
  else
    match (recKeys obs.pending).find?
        (fun id => decide (scanDeviceId obs.pending id = selfDeviceId)) with
    | none => TickResult.noMatch
    | some requestId =>
      match recGet obs.pending requestId with
      | none => TickResult.noMatch
      | some p =>
        if jsTrim (p.deviceId.getD "") ≠ selfDeviceId then TickResult.noMatch
        else
          match approvePairing obs.pending obs.paired requestId obs.now
              obs.freshToken with
          | Except.ok res => TickResult.approved requestId res
          | Except.error e => TickResult.failed e

/-- The requests a whole daemon run approves and persists, over the sequence
of states its poll cycles observe: the loop sleeps through no-match ticks,
and returns after the first already-paired tick, the first approval (both
collections are then written), or a thrown error. -/
def selfPairingRun (selfDeviceId : String) :
    List DaemonObs → List (String × ApprovalResult)
  | [] => []
  | obs :: rest =>
    match selfPairingTick selfDeviceId obs with
    | TickResult.alreadyPaired => []
    | TickResult.noMatch => selfPairingRun selfDeviceId rest
    | TickResult.approved requestId res => [(requestId, res)]
    | TickResult.failed _ => []

/-- The value of `process.exitCode` as the lib-based daemon copy's `main().catch`
handler leaves it: `1` when `main`'s promise was rejected
(`process.exitCode = 1`), untouched (`0`) otherwise. -/
def libDaemonExitCode (tick : TickResult) : Nat :=
  match tick with
  | TickResult.failed _ => 1
  | _ => 0

/-- The value of `process.exitCode` as the standalone
`scripts/bootstrap/auto-approve-self-pairing.ts` copy's `main().catch`
handler leaves it: `process.exitCode = 0` on rejection, so `0` always. -/
def bootstrapDaemonExitCode (tick : TickResult) : Nat :=
  match tick with
  | TickResult.failed _ => 0
  | _ => 0

/-- The `tokens` object of `~/.codex/auth.json`
(`watch-codex-auth.ts`).  `none` in a field models an absent or non-string
value, which the source maps to the same result as the empty string. -/
structure CodexTokens where
  accessToken : Option String := none
  refreshToken : Option String := none
  accountId : Option String := none
deriving DecidableEq

/-- A parsed `~/.codex/auth.json` document.  `lastRefresh = some t` models a
`last_refresh` string that `new Date(...)` parses to epoch-millisecond `t`;
`none` models an absent, empty or unparsable one (all of which make
`Number.isFinite` fail and fall back to `Date.now()`). -/
structure CodexAuth where
  tokens : Option CodexTokens := none
  lastRefresh : Option Nat := none
deriving DecidableEq

/-- Model of `AuthProfile` of `watch-codex-auth.ts`. -/
structure AuthProfile where
  type : String
  provider : String
  access : String
  refresh : String
  expires : Nat
  accountId : Option String := none
deriving DecidableEq

/-- An `auth-profiles.json` document as `safeReadJson` + the defensive
`typeof` checks of `syncOnce` see it: `version` is `none` when absent or
not a number, `profiles` is `none` when absent or not an object. -/
structure AuthStoreJson where
  version : Option Int := none
  profiles : Option (Rec AuthProfile) := none
deriving DecidableEq

/-- The store document `syncOnce` writes. -/
structure AuthStoreOut where
  version : Int
  profiles : Rec AuthProfile
deriving DecidableEq

/-- The fixed profile id `PROFILE_ID = "openai-codex:default"`. -/
def profileId : String := "openai-codex:default"

/-- Model of `buildProfile` of `watch-codex-auth.ts`: trim the two tokens, fail on a
blank one, compute expiry from `last_refresh` (or `now`) plus one hour, and
carry the account id when it is a string. -/
def buildProfile (codex : CodexAuth) (now : Nat) : Option AuthProfile :=
  let access := jsTrim ((codex.tokens.bind CodexTokens.accessToken).getD "")
  let refresh := jsTrim ((codex.tokens.bind CodexTokens.refreshToken).getD "")
  if access = "" ∨ refresh = "" then none
  else
    some
      { type := "oauth"
        provider := "openai-codex"
        access := access
        refresh := refresh
        expires :=
          match codex.lastRefresh with
          | some t => t + 60 * 60 * 1000
          | none => now + 60 * 60 * 1000
        accountId := codex.tokens.bind CodexTokens.accountId }

/-- Model of `profilesEqual` of `watch-codex-auth.ts`: field-for-field comparison
against a possibly missing stored profile. -/
def profilesEqual (a : Option AuthProfile) (b : AuthProfile) : Bool :=
  match a with
  | none => false
  | some a =>
    decide (a.type = b.type) && decide (a.provider = b.provider) &&
    decide (a.access = b.access) && decide (a.refresh = b.refresh) &&
    decide (a.expires = b.expires) && decide (a.accountId = b.accountId)

/-- Outcome of one `syncOnce` cycle: the three early returns (unreadable
source, missing tokens, already up to date), or a store write. -/
inductive SyncResult where
  | skipUnreadable
  | skipNoTokens
  | skipUpToDate
  | write (store : AuthStoreOut)
deriving DecidableEq

/-- The `existingVersion` computation of `syncOnce`: the stored version when it is a
number, else the default `1`. -/
def existingVersionOf (existing : Option AuthStoreJson) : Int :=
  match existing with
  | some s => s.version.getD 1
  | none => 1

/-- The `existingProfiles` computation of `syncOnce`: the stored profile map when it is an
object, else empty. -/
def existingProfilesOf (existing : Option AuthStoreJson) : Rec AuthProfile :=
  match existing with
  | some s => s.profiles.getD []
  | none => []

/-- Model of `syncOnce` of `watch-codex-auth.ts` as a pure function of the parsed
source file (`none`: unreadable or not an object), the parsed existing
store file and the current time. -/
def syncOnce (codex : Option CodexAuth) (existing : Option AuthStoreJson)
    (now : Nat) : SyncResult :=
  match codex with
  | none => SyncResult.skipUnreadable
  | some c =>
    match buildProfile c now with
    | none => SyncResult.skipNoTokens
    | some nextProfile =>
      if profilesEqual (recGet (existingProfilesOf existing) profileId)
          nextProfile then
        SyncResult.skipUpToDate
      else
        SyncResult.write
          { version := existingVersionOf existing
            profiles :=
              recInsert (existingProfilesOf existing) profileId nextProfile }

/-- Reading back the JSON document a write produced: the version is the
number that was written, the profiles are the map that was written. -/
def storeRoundTrip (store : AuthStoreOut) : AuthStoreJson :=
  { version := some store.version, profiles := some store.profiles }

example :
    approvePairing
      [("r1", { requestId := "r1", deviceId := some "dev-A",
                role := some (JStr.str "operator"),
                scopes := some [JStr.str "chat"], ts := 1000 })]
      [] "r1" 2000 "tokval" =
    Except.ok
      { deviceId := "dev-A"
        updatedPendingById := []
        updatedPairedByDeviceId :=
          [("dev-A",
            { deviceId := "dev-A"
              role := some (JStr.str "operator")
              roles := some [JStr.str "operator"]
              scopes := some [JStr.str "chat"]
              tokens := some [("operator",
                { token := "tokval", role := "operator", scopes := ["chat"],
                  createdAtMs := 2000 })]
              createdAtMs := 2000
              approvedAtMs := 2000 })] } := by
  rfl

theorem recGet_insert_self {α : Type} (r : Rec α) (k : String) (v : α) :
    recGet (recInsert r k v) k = some v := by
  induction r with
  | nil => simp [recInsert, recGet]
  | cons e rest ih =>
    obtain ⟨k', v'⟩ := e
    by_cases h : k' = k
    · subst h; simp [recInsert, recGet]
    · simp [recInsert, recGet, h, ih]

theorem recGet_insert_ne {α : Type} (r : Rec α) (k : String) (v : α)
    (k' : String) (h : k' ≠ k) : recGet (recInsert r k v) k' = recGet r k' := by
  induction r with
  | nil => simp [recInsert, recGet, Ne.symm h]
  | cons e rest ih =>
    obtain ⟨k0, v0⟩ := e
    by_cases h0 : k0 = k
    · subst h0
      simp [recInsert, recGet, Ne.symm h]
    · simp [recInsert, recGet, h0, ih]

theorem recGet_erase_self {α : Type} (r : Rec α) (k : String) :
    recGet (recErase r k) k = none := by
  induction r with
  | nil => simp [recErase, recGet]
  | cons e rest ih =>
    obtain ⟨k', v'⟩ := e
    by_cases h : k' = k
    · simp [recErase, recGet, h, ih]
    · simp [recErase, recGet, h, ih]

theorem recGet_erase_ne {α : Type} (r : Rec α) (k k' : String) (h : k' ≠ k) :
    recGet (recErase r k) k' = recGet r k' := by
  induction r with
  | nil => simp [recErase, recGet]
  | cons e rest ih =>
    obtain ⟨k0, v0⟩ := e
    by_cases h0 : k0 = k
    · subst h0
      simp [recErase, recGet, Ne.symm h, ih]
    · simp [recErase, recGet, h0, ih]

theorem mem_uniqSortedStrings {s : String} {l : List JStr} :
    s ∈ uniqSortedStrings l ↔ ∃ v ∈ l, trimmedEntry v = some s := by
  unfold uniqSortedStrings
  rw [(List.perm_insertionSort _ _).mem_iff, List.mem_dedup, List.mem_filterMap]

theorem nodup_uniqSortedStrings (l : List JStr) : (uniqSortedStrings l).Nodup :=
  (List.perm_insertionSort _ _).nodup_iff.mpr (List.nodup_dedup _)

theorem sorted_uniqSortedStrings (l : List JStr) :
    (uniqSortedStrings l).Sorted strLeRel :=
  List.sorted_insertionSort _ _

theorem uniqSortedStrings_perm {l l' : List JStr} (h : l.Perm l') :
    uniqSortedStrings l = uniqSortedStrings l' :=
  List.eq_of_perm_of_sorted
    (((List.perm_insertionSort _ _).trans ((h.filterMap _).dedup)).trans
      (List.perm_insertionSort _ _).symm)
    (List.sorted_insertionSort _ _) (List.sorted_insertionSort _ _)

theorem uniqSortedStrings_eq_of_mem_iff {l l' : List JStr}
    (h : ∀ s, (∃ v ∈ l, trimmedEntry v = some s) ↔
      ∃ v ∈ l', trimmedEntry v = some s) :
    uniqSortedStrings l = uniqSortedStrings l' :=
  List.eq_of_perm_of_sorted
    ((List.perm_ext_iff_of_nodup (nodup_uniqSortedStrings l)
        (nodup_uniqSortedStrings l')).mpr fun s => by
      rw [mem_uniqSortedStrings, mem_uniqSortedStrings]; exact h s)
    (List.sorted_insertionSort _ _)
    (List.sorted_insertionSort _ _)

theorem isValidId_empty_false : isValidId "" = false := by decide

theorem approvePairing_ok_of_valid (pendingById : Rec PendingRequest)
    (pairedByDeviceId : Rec PairedDevice) (requestId : String) (now : Nat)
    (freshToken : String) (p : PendingRequest)
    (hp : recGet pendingById requestId = some p)
    (hv : isValidId (jsTrim (p.deviceId.getD "")) = true)
    (hr : roleForTokenOf p = "" ∨ isValidId (roleForTokenOf p) = true) :
    approvePairing pendingById pairedByDeviceId requestId now freshToken =
      Except.ok
        { deviceId := jsTrim (p.deviceId.getD "")
          updatedPendingById := recErase pendingById requestId
          updatedPairedByDeviceId :=
            recInsert pairedByDeviceId (jsTrim (p.deviceId.getD ""))
              (approvedDevice
                (recGet pairedByDeviceId (jsTrim (p.deviceId.getD "")))
                p (jsTrim (p.deviceId.getD "")) now freshToken) } := by
  have hne : jsTrim (p.deviceId.getD "") ≠ "" := by
    intro h
    rw [h, isValidId_empty_false] at hv
    cases hv
  have hvne : ¬ isValidId (jsTrim (p.deviceId.getD "")) = false := by
    rw [hv]; exact fun h => by cases h
  have hrole : ¬(roleForTokenOf p ≠ "" ∧ isValidId (roleForTokenOf p) = false) := by
    rcases hr with h | h
    · exact fun hc => hc.1 h
    · exact fun hc => by rw [h] at hc; cases hc.2
  simp only [approvePairing, hp]
  rw [if_neg hne, if_neg hvne, if_neg hrole]

theorem approvePairing_ok_deviceId (pendingById : Rec PendingRequest)
    (pairedByDeviceId : Rec PairedDevice) (requestId : String) (now : Nat)
    (freshToken : String) (res : ApprovalResult)
    (h : approvePairing pendingById pairedByDeviceId requestId now freshToken =
      Except.ok res) :
    ∃ p, recGet pendingById requestId = some p ∧
      res.deviceId = jsTrim (p.deviceId.getD "") := by
  cases hg : recGet pendingById requestId with
  | none =>
    rw [approvePairing, hg] at h
    cases h
  | some p =>
    refine ⟨p, rfl, ?_⟩
    simp only [approvePairing, hg] at h
    split_ifs at h with h1 h2 h3
    injection h with h4
    rw [← h4]

theorem approvePairing_error_of_invalid (pendingById : Rec PendingRequest)
    (pairedByDeviceId : Rec PairedDevice) (requestId : String) (now : Nat)
    (freshToken : String) (p : PendingRequest)
    (hp : recGet pendingById requestId = some p)
    (hbad : jsTrim (p.deviceId.getD "") = "" ∨
      isValidId (jsTrim (p.deviceId.getD "")) = false ∨
      (roleForTokenOf p ≠ "" ∧ isValidId (roleForTokenOf p) = false)) :
    ∃ e, approvePairing pendingById pairedByDeviceId requestId now freshToken =
      Except.error e ∧ e.isInvalidRequest = true := by
  simp only [approvePairing, hp]
  by_cases h1 : jsTrim (p.deviceId.getD "") = ""
  · exact ⟨ApproveError.missingDeviceId, by rw [if_pos h1], rfl⟩
  · rw [if_neg h1]
    by_cases h2 : isValidId (jsTrim (p.deviceId.getD "")) = false
    · exact ⟨ApproveError.invalidDeviceIdFormat, by rw [if_pos h2], rfl⟩
    · rw [if_neg h2]
      have h3 : roleForTokenOf p ≠ "" ∧ isValidId (roleForTokenOf p) = false := by
        rcases hbad with h | h | h
        · exact absurd h h1
        · exact absurd h h2
        · exact h
      exact ⟨ApproveError.invalidRoleFormat, by rw [if_pos h3], rfl⟩

/-- The concrete pending request used by several witnesses: well-formed
device id `dev-A`, role `operator`, one scope. -/
def reqW : PendingRequest :=
  { requestId := "r1", deviceId := some "dev-A",
    role := some (JStr.str "operator"), scopes := some [JStr.str "chat"],
    ts := 1000 }

/-- A one-request pending collection holding `reqW` under id `r1`. -/
def pendW : Rec PendingRequest := [("r1", reqW)]

/-- Claim C1: approving a pending request whose device id is non-blank and
well-formed, whose role is a non-blank well-formed identifier, and whose
device id is not yet paired, returns that device id, a paired entry whose
token map has exactly the requested role as its only key, and a pending
collection equal to the input minus exactly the consumed request id, with
every other pending entry and every previously paired device unchanged. -/
theorem approvePairing_roundtrip (pendingById : Rec PendingRequest)
    (pairedByDeviceId : Rec PairedDevice) (requestId : String) (now : Nat)
    (freshToken : String) (p : PendingRequest) (d r : String)
    (hp : recGet pendingById requestId = some p)
    (hd : jsTrim (p.deviceId.getD "") = d)
    (hdv : isValidId d = true)
    (hrole : roleForTokenOf p = r)
    (hrne : r ≠ "")
    (hrv : isValidId r = true)
    (hnew : recGet pairedByDeviceId d = none) :
    ∃ res dev,
      approvePairing pendingById pairedByDeviceId requestId now freshToken =
        Except.ok res ∧
      res.deviceId = d ∧
      recGet res.updatedPairedByDeviceId d = some dev ∧
      recKeys (dev.tokens.getD []) = [r] ∧
      res.updatedPendingById = recErase pendingById requestId ∧
      recGet res.updatedPendingById requestId = none ∧
      (∀ k, k ≠ requestId →
        recGet res.updatedPendingById k = recGet pendingById k) ∧
      (∀ d', d' ≠ d →
        recGet res.updatedPairedByDeviceId d' = recGet pairedByDeviceId d') := by
  have hok := approvePairing_ok_of_valid pendingById pairedByDeviceId requestId
    now freshToken p hp (hd ▸ hdv) (Or.inr (hrole ▸ hrv))
  rw [hd, hnew] at hok
  refine ⟨_, approvedDevice none p d now freshToken, hok, rfl, ?_, ?_, rfl,
    recGet_erase_self _ _, fun k hk => recGet_erase_ne _ _ _ hk, fun d' hd' =>
    recGet_insert_ne _ _ _ _ hd'⟩
  · exact recGet_insert_self _ _ _
  · simp [approvedDevice, approveTokens, hrole, hrne, recGet, recInsert,
      recKeys]

/-- Witness for C1 at the spec's own concrete scenario. -/
theorem approvePairing_roundtrip_witness :
    ∃ res dev,
      approvePairing pendW [] "r1" 2000 "tokval" = Except.ok res ∧
      res.deviceId = "dev-A" ∧
      recGet res.updatedPairedByDeviceId "dev-A" = some dev ∧
      recKeys (dev.tokens.getD []) = ["operator"] ∧
      res.updatedPendingById = recErase pendW "r1" ∧
      recGet res.updatedPendingById "r1" = none ∧
      (∀ k, k ≠ "r1" → recGet res.updatedPendingById k = recGet pendW k) ∧
      (∀ d', d' ≠ "dev-A" →
        recGet res.updatedPairedByDeviceId d' = recGet ([] : Rec PairedDevice) d') :=
  approvePairing_roundtrip pendW [] "r1" 2000 "tokval" reqW "dev-A" "operator"
    rfl (by decide) (by decide) (by decide) (by decide) (by decide) rfl

/-- A pending request whose device id is padded with whitespace: it
contains characters outside the safe identifier set, yet trims to a valid
id. -/
def reqPadded : PendingRequest :=
  { requestId := "r1", deviceId := some " dev-A ", ts := 1 }

/-- A one-request pending collection holding `reqPadded`. -/
def pendPadded : Rec PendingRequest := [("r1", reqPadded)]

/-- Counterexample to claim C3 as stated: the device id `" dev-A "`
contains characters (spaces) outside the safe identifier set, yet
`approvePairing` does not fail — it trims the id and approves it as
`"dev-A"`.  Validation applies to the trimmed id, not the raw one. -/
theorem approvePairing_padded_id_counterexample :
    (" dev-A ").data.all isSafeChar = false ∧
    (approvePairing pendPadded [] "r1" 7 "tok").isOk = true ∧
    (approvePairing pendPadded [] "r1" 7 "tok").map ApprovalResult.deviceId =
      Except.ok "dev-A" := by
  refine ⟨by decide, ?_, ?_⟩ <;> rfl

/-- Claim C3 (amended): if the referenced request exists but its device id
is blank after trimming, or its trimmed device id — or its trimmed
requested role, when non-blank — contains a character outside the safe
identifier set, then `approvePairing` fails with an `InvalidRequest`-class
error and returns no updated collections (being pure, it leaves both
inputs untouched); apart from the trimming of surrounding whitespace, an
unsafe identifier is never coerced or truncated. -/
theorem approvePairing_invalid_id_rejected (pendingById : Rec PendingRequest)
    (pairedByDeviceId : Rec PairedDevice) (requestId : String) (now : Nat)
    (freshToken : String) (p : PendingRequest)
    (hp : recGet pendingById requestId = some p)
    (hbad : jsTrim (p.deviceId.getD "") = "" ∨
      isValidId (jsTrim (p.deviceId.getD "")) = false ∨
      (roleForTokenOf p ≠ "" ∧ isValidId (roleForTokenOf p) = false)) :
    ∃ e, approvePairing pendingById pairedByDeviceId requestId now freshToken =
      Except.error e ∧ e.isInvalidRequest = true :=
  approvePairing_error_of_invalid pendingById pairedByDeviceId requestId now
    freshToken p hp hbad

/-- A pending request with the spec's canonical malformed device id. -/
def reqBad : PendingRequest :=
  { requestId := "r2", deviceId := some "../etc", ts := 2 }

/-- A one-request pending collection holding `reqBad`. -/
def pendBad : Rec PendingRequest := [("r2", reqBad)]

/-- Witness for C3 (amended) at the spec's `"../etc"` device id. -/
theorem approvePairing_invalid_id_rejected_witness :
    ∃ e, approvePairing pendBad [] "r2" 9 "tok" = Except.error e ∧
      e.isInvalidRequest = true :=
  approvePairing_invalid_id_rejected pendBad [] "r2" 9 "tok" reqBad rfl
    (Or.inr (Or.inl (by decide)))

/-- Claim C4: the merged role list is the deduplicated, lexicographically
sorted set union of the existing device's role list and singular role and
the request's role list and singular role (membership is exactly "some
pushed source entry is a string trimming to it"), it is the same however
the source entries are ordered, and it is absent — not an empty list —
when the union is empty; the merged scope list is likewise the
deduplicated sorted union of the existing device's scopes and the
request's scopes, is order-independent, and is always present on the
approved device record, possibly empty. -/
theorem mergeRoles_mergeScopes_set_union
    (existing existing2 : Option PairedDevice)
    (pending pending2 : PendingRequest)
    (hr : (roleSources existing pending).Perm (roleSources existing2 pending2))
    (hs : (scopeSources existing pending).Perm
      (scopeSources existing2 pending2)) :
    (∀ out, mergeRoles existing pending = some out →
      out.Sorted strLeRel ∧ out.Nodup ∧
      (∀ s, s ∈ out ↔
        ∃ v ∈ roleSources existing pending, trimmedEntry v = some s)) ∧
    (mergeRoles existing pending = none ↔
      ∀ s, ¬ ∃ v ∈ roleSources existing pending, trimmedEntry v = some s) ∧
    mergeRoles existing pending = mergeRoles existing2 pending2 ∧
    (mergeScopes existing pending).Sorted strLeRel ∧
    (mergeScopes existing pending).Nodup ∧
    (∀ s, s ∈ mergeScopes existing pending ↔
      ∃ v ∈ scopeSources existing pending, trimmedEntry v = some s) ∧
    mergeScopes existing pending = mergeScopes existing2 pending2 ∧
    (mergeRoles existing pending = none →
      ∀ d now k, (approvedDevice existing pending d now k).roles = none) ∧
    (∀ d now k, (approvedDevice existing pending d now k).scopes =
      some ((mergeScopes existing pending).map JStr.str)) := by
  refine ⟨?_, ?_, ?_, sorted_uniqSortedStrings _, nodup_uniqSortedStrings _,
    fun s => mem_uniqSortedStrings, ?_, ?_, fun d now k => rfl⟩
  · intro out h
    have hout : out = uniqSortedStrings (roleSources existing pending) := by
      unfold mergeRoles at h
      split_ifs at h
      injection h with h'
      exact h'.symm
    subst hout
    exact ⟨sorted_uniqSortedStrings _, nodup_uniqSortedStrings _,
      fun s => mem_uniqSortedStrings⟩
  · unfold mergeRoles
    split_ifs with h
    · simp only [true_iff]
      intro s hsrc
      rw [← mem_uniqSortedStrings] at hsrc
      rw [List.isEmpty_iff] at h
      rw [h] at hsrc
      cases hsrc
    · simp only [reduceCtorEq, false_iff, not_forall, not_not]
      rw [List.isEmpty_iff] at h
      obtain ⟨s, hs'⟩ := List.exists_mem_of_ne_nil _ h
      exact ⟨s, mem_uniqSortedStrings.mp hs'⟩
  · unfold mergeRoles
    rw [uniqSortedStrings_perm hr]
  · unfold mergeScopes
    rw [uniqSortedStrings_perm hs]
  · intro h d now k
    unfold approvedDevice
    simp only [h, Option.map_none']

/-- An already-paired device with roles `a`, `b` and scope `x`. -/
def devC4 : PairedDevice :=
  { deviceId := "d", roles := some [JStr.str "a", JStr.str "b"],
    scopes := some [JStr.str "x"], createdAtMs := 0, approvedAtMs := 0 }

/-- The same device with its role list written in the other order. -/
def devC4b : PairedDevice :=
  { deviceId := "d", roles := some [JStr.str "b", JStr.str "a"],
    scopes := some [JStr.str "x"], createdAtMs := 0, approvedAtMs := 0 }

/-- A request bringing roles `b`, `c` and scope `chat`. -/
def reqC4 : PendingRequest :=
  { requestId := "r", roles := some [JStr.str "b", JStr.str "c"],
    scopes := some [JStr.str "chat"] }

/-- The same request with its role list written in the other order. -/
def reqC4b : PendingRequest :=
  { requestId := "r", roles := some [JStr.str "c", JStr.str "b"],
    scopes := some [JStr.str "chat"] }

example : mergeRoles (some devC4) reqC4 = some ["a", "b", "c"] := by decide

example : mergeScopes (some devC4) reqC4 = ["chat", "x"] := by decide

/-- Witness for C4 at the spec's `{a,b} ∪ {b,c}` example, with the inputs
re-ordered on the second copy. -/
theorem mergeRoles_mergeScopes_set_union_witness :
    (∀ out, mergeRoles (some devC4) reqC4 = some out →
      out.Sorted strLeRel ∧ out.Nodup ∧
      (∀ s, s ∈ out ↔
        ∃ v ∈ roleSources (some devC4) reqC4, trimmedEntry v = some s)) ∧
    (mergeRoles (some devC4) reqC4 = none ↔
      ∀ s, ¬ ∃ v ∈ roleSources (some devC4) reqC4, trimmedEntry v = some s) ∧
    mergeRoles (some devC4) reqC4 = mergeRoles (some devC4b) reqC4b ∧
    (mergeScopes (some devC4) reqC4).Sorted strLeRel ∧
    (mergeScopes (some devC4) reqC4).Nodup ∧
    (∀ s, s ∈ mergeScopes (some devC4) reqC4 ↔
      ∃ v ∈ scopeSources (some devC4) reqC4, trimmedEntry v = some s) ∧
    mergeScopes (some devC4) reqC4 = mergeScopes (some devC4b) reqC4b ∧
    (mergeRoles (some devC4) reqC4 = none →
      ∀ d now k, (approvedDevice (some devC4) reqC4 d now k).roles = none) ∧
    (∀ d now k, (approvedDevice (some devC4) reqC4 d now k).scopes =
      some ((mergeScopes (some devC4) reqC4).map JStr.str)) :=
  mergeRoles_mergeScopes_set_union (some devC4) (some devC4b) reqC4 reqC4b
    (by decide) (by decide)

/-- Claim C5: approving the same device id twice (first-time pairing, then
re-approval with the same role) keeps the device's creation timestamp from
the first approval while the approval timestamp advances to the second
time; the rotated token keeps the first token's creation timestamp and
last-used timestamp, gets the freshly generated (different) token value,
gets its rotation timestamp set to the second approval time, and has its
revocation timestamp cleared. -/
theorem approve_twice_token_rotation
    (pend1 pend2 : Rec PendingRequest) (paired0 : Rec PairedDevice)
    (rid1 rid2 d r : String) (t1 t2 : Nat) (k1 k2 : String)
    (p1 p2 : PendingRequest)
    (hp1 : recGet pend1 rid1 = some p1)
    (hd1 : jsTrim (p1.deviceId.getD "") = d)
    (hdv : isValidId d = true)
    (hr1 : roleForTokenOf p1 = r)
    (hrne : r ≠ "")
    (hrv : isValidId r = true)
    (hnew : recGet paired0 d = none)
    (hp2 : recGet pend2 rid2 = some p2)
    (hd2 : jsTrim (p2.deviceId.getD "") = d)
    (hr2 : roleForTokenOf p2 = r)
    (hk : k1 ≠ k2) :
    ∃ res1 res2 dev1 dev2 tok1 tok2,
      approvePairing pend1 paired0 rid1 t1 k1 = Except.ok res1 ∧
      recGet res1.updatedPairedByDeviceId d = some dev1 ∧
      recGet (dev1.tokens.getD []) r = some tok1 ∧
      approvePairing pend2 res1.updatedPairedByDeviceId rid2 t2 k2 =
        Except.ok res2 ∧
      recGet res2.updatedPairedByDeviceId d = some dev2 ∧
      recGet (dev2.tokens.getD []) r = some tok2 ∧
      dev1.createdAtMs = t1 ∧
      dev2.createdAtMs = dev1.createdAtMs ∧
      dev1.approvedAtMs = t1 ∧
      dev2.approvedAtMs = t2 ∧
      tok1.token = k1 ∧
      tok2.token = k2 ∧
      tok2.token ≠ tok1.token ∧
      tok1.createdAtMs = t1 ∧
      tok2.createdAtMs = tok1.createdAtMs ∧
      tok1.rotatedAtMs = none ∧
      tok2.rotatedAtMs = some t2 ∧
      tok2.revokedAtMs = none ∧
      tok2.lastUsedAtMs = tok1.lastUsedAtMs := by
  have hok1 := approvePairing_ok_of_valid pend1 paired0 rid1 t1 k1 p1 hp1
    (hd1 ▸ hdv) (Or.inr (hr1 ▸ hrv))
  rw [hd1, hnew] at hok1
  have hok2 := approvePairing_ok_of_valid pend2
    (recInsert paired0 d (approvedDevice none p1 d t1 k1)) rid2 t2 k2 p2 hp2
    (hd2 ▸ hdv) (Or.inr (hr2 ▸ hrv))
  rw [hd2, recGet_insert_self] at hok2
  refine ⟨_, _, approvedDevice none p1 d t1 k1,
    approvedDevice (some (approvedDevice none p1 d t1 k1)) p2 d t2 k2,
    { token := k1, role := r, scopes := uniqSortedStrings (p1.scopes.getD []),
      createdAtMs := t1 },
    { token := k2, role := r, scopes := uniqSortedStrings (p2.scopes.getD []),
      createdAtMs := t1, rotatedAtMs := some t2, lastUsedAtMs := none },
    hok1, recGet_insert_self _ _ _, ?_, hok2, recGet_insert_self _ _ _, ?_,
    ?_, ?_, rfl, rfl, rfl, rfl, Ne.symm hk, rfl, rfl, rfl, rfl, rfl, rfl⟩
  · simp [approvedDevice, approveTokens, hr1, hrne, recGet, recInsert]
  · simp [approvedDevice, approveTokens, hr1, hr2, hrne, recGet, recInsert]
  · simp [approvedDevice]
  · simp [approvedDevice]

/-- A second pairing request from the same device `dev-A` with the same
role, used to exercise re-approval. -/
def reqW2 : PendingRequest :=
  { requestId := "r2", deviceId := some "dev-A",
    role := some (JStr.str "operator"), scopes := some [JStr.str "chat"],
    ts := 3000 }

/-- A one-request pending collection holding `reqW2`. -/
def pendW2 : Rec PendingRequest := [("r2", reqW2)]

/-- Witness for C5: approve `dev-A` as `operator` at time 2000 with token
`tokA`, then again at time 4000 with token `tokB`. -/
theorem approve_twice_token_rotation_witness :
    ∃ res1 res2 dev1 dev2 tok1 tok2,
      approvePairing pendW [] "r1" 2000 "tokA" = Except.ok res1 ∧
      recGet res1.updatedPairedByDeviceId "dev-A" = some dev1 ∧
      recGet (dev1.tokens.getD []) "operator" = some tok1 ∧
      approvePairing pendW2 res1.updatedPairedByDeviceId "r2" 4000 "tokB" =
        Except.ok res2 ∧
      recGet res2.updatedPairedByDeviceId "dev-A" = some dev2 ∧
      recGet (dev2.tokens.getD []) "operator" = some tok2 ∧
      dev1.createdAtMs = 2000 ∧
      dev2.createdAtMs = dev1.createdAtMs ∧
      dev1.approvedAtMs = 2000 ∧
      dev2.approvedAtMs = 4000 ∧
      tok1.token = "tokA" ∧
      tok2.token = "tokB" ∧
      tok2.token ≠ tok1.token ∧
      tok1.createdAtMs = 2000 ∧
      tok2.createdAtMs = tok1.createdAtMs ∧
      tok1.rotatedAtMs = none ∧
      tok2.rotatedAtMs = some 4000 ∧
      tok2.revokedAtMs = none ∧
      tok2.lastUsedAtMs = tok1.lastUsedAtMs :=
  approve_twice_token_rotation pendW pendW2 [] "r1" "r2" "dev-A" "operator"
    2000 4000 "tokA" "tokB" reqW reqW2 rfl (by decide) (by decide) (by decide)
    (by decide) (by decide) rfl rfl (by decide) (by decide) (by decide)

/-- Claim C8: when the pending request's role is absent or blank after
trimming, approval rotates no token: the approved device's token map is
the existing device's token map carried forward (a copy with equal
contents; aliasing is not observable in the pure model), and a first-time
approval of such a request yields an empty token map. -/
theorem approvePairing_no_role_no_token
    (pendingById : Rec PendingRequest) (pairedByDeviceId : Rec PairedDevice)
    (requestId : String) (now : Nat) (freshToken : String)
    (p : PendingRequest) (d : String)
    (hp : recGet pendingById requestId = some p)
    (hd : jsTrim (p.deviceId.getD "") = d)
    (hdv : isValidId d = true)
    (hnorole : p.role = none ∨
      ∃ s, p.role = some (JStr.str s) ∧ jsTrim s = "") :
    ∃ res dev,
      approvePairing pendingById pairedByDeviceId requestId now freshToken =
        Except.ok res ∧
      recGet res.updatedPairedByDeviceId d = some dev ∧
      dev.tokens = some
        (match recGet pairedByDeviceId d with
          | some e => e.tokens.getD []
          | none => []) ∧
      (recGet pairedByDeviceId d = none → dev.tokens = some []) := by
  have hrole : roleForTokenOf p = "" := by
    rcases hnorole with h | ⟨s, hs, ht⟩
    · simp [roleForTokenOf, h]
    · simp [roleForTokenOf, hs, ht]
  have hok := approvePairing_ok_of_valid pendingById pairedByDeviceId requestId
    now freshToken p hp (hd ▸ hdv) (Or.inl hrole)
  rw [hd] at hok
  refine ⟨_, approvedDevice (recGet pairedByDeviceId d) p d now freshToken,
    hok, recGet_insert_self _ _ _, ?_, ?_⟩
  · simp [approvedDevice, approveTokens, hrole]
  · intro h
    simp [approvedDevice, approveTokens, hrole, h]

/-- A pairing request for `dev-A` that carries no role at all. -/
def reqNoRole : PendingRequest :=
  { requestId := "r3", deviceId := some "dev-A",
    scopes := some [JStr.str "chat"], ts := 5 }

/-- A one-request pending collection holding `reqNoRole`. -/
def pendNoRole : Rec PendingRequest := [("r3", reqNoRole)]

/-- Witness for C8: first-time approval of a role-less request yields an
empty token map. -/
theorem approvePairing_no_role_no_token_witness :
    ∃ res dev,
      approvePairing pendNoRole [] "r3" 6 "tok" = Except.ok res ∧
      recGet res.updatedPairedByDeviceId "dev-A" = some dev ∧
      dev.tokens = some
        (match recGet ([] : Rec PairedDevice) "dev-A" with
          | some e => e.tokens.getD []
          | none => []) ∧
      (recGet ([] : Rec PairedDevice) "dev-A" = none → dev.tokens = some []) :=
  approvePairing_no_role_no_token pendNoRole [] "r3" 6 "tok" reqNoRole "dev-A"
    rfl (by decide) (by decide) (Or.inl rfl)

theorem approveTokens_rotated_entry (existing : Option PairedDevice)
    (p : PendingRequest) (now : Nat) (k : String) (r : String)
    (hr : roleForTokenOf p = r) (hrne : r ≠ "") :
    ∃ tok, recGet (approveTokens existing p now k) r = some tok ∧
      tok.token = k ∧ tok.role = r ∧
      tok.scopes = uniqSortedStrings (p.scopes.getD []) := by
  simp only [approveTokens, hr]
  rw [if_neg hrne]
  exact ⟨_, recGet_insert_self _ _ _, rfl, rfl, rfl⟩

/-- Claim C10: whenever an approval rotates a token, the rotated token's
scope list is computed from the request alone — `uniqSortedStrings` of the
request's scope entries (each trimmed, blanks and non-strings dropped,
deduplicated, sorted) — for every paired collection, so the device's
previously stored scopes never enter it, and it can differ from the merged
device-level scope list on the same record. -/
theorem rotated_token_scopes_from_request
    (pendingById : Rec PendingRequest) (pairedByDeviceId : Rec PairedDevice)
    (requestId : String) (now : Nat) (freshToken : String)
    (p : PendingRequest) (d r : String)
    (hp : recGet pendingById requestId = some p)
    (hd : jsTrim (p.deviceId.getD "") = d)
    (hdv : isValidId d = true)
    (hr : roleForTokenOf p = r)
    (hrne : r ≠ "")
    (hrv : isValidId r = true) :
    ∃ res dev tok,
      approvePairing pendingById pairedByDeviceId requestId now freshToken =
        Except.ok res ∧
      recGet res.updatedPairedByDeviceId d = some dev ∧
      recGet (dev.tokens.getD []) r = some tok ∧
      tok.scopes = uniqSortedStrings (p.scopes.getD []) ∧
      tok.scopes.Sorted strLeRel ∧
      tok.scopes.Nodup ∧
      (∀ s, s ∈ tok.scopes ↔
        ∃ v ∈ p.scopes.getD [], trimmedEntry v = some s) := by
  have hok := approvePairing_ok_of_valid pendingById pairedByDeviceId requestId
    now freshToken p hp (hd ▸ hdv) (Or.inr (hr ▸ hrv))
  rw [hd] at hok
  obtain ⟨tok, htok, -, -, hscopes⟩ :=
    approveTokens_rotated_entry (recGet pairedByDeviceId d) p now freshToken r
      hr hrne
  refine ⟨_, approvedDevice (recGet pairedByDeviceId d) p d now freshToken,
    tok, hok, recGet_insert_self _ _ _, ?_, hscopes, ?_, ?_, ?_⟩
  · simpa [approvedDevice] using htok
  · rw [hscopes]; exact sorted_uniqSortedStrings _
  · rw [hscopes]; exact nodup_uniqSortedStrings _
  · intro s
    rw [hscopes]
    exact mem_uniqSortedStrings

/-- The paired collection holding `devC4` (scope `x`) under `dev-A`,
so that the device-level merged scopes differ from the token scopes. -/
def pairedC10 : Rec PairedDevice :=
  [("dev-A",
    { deviceId := "dev-A", roles := some [JStr.str "a", JStr.str "b"],
      scopes := some [JStr.str "x"], createdAtMs := 0, approvedAtMs := 0 })]

/-- Witness for C10: re-approving `dev-A` (already paired with scope `x`)
with request scope `chat` produces a token scoped `["chat"]` while the
device record's merged scope list is `["chat", "x"]` — the two differ. -/
theorem rotated_token_scopes_from_request_witness :
    (∃ res dev tok,
      approvePairing pendW pairedC10 "r1" 2000 "tokval" = Except.ok res ∧
      recGet res.updatedPairedByDeviceId "dev-A" = some dev ∧
      recGet (dev.tokens.getD []) "operator" = some tok ∧
      tok.scopes = uniqSortedStrings (reqW.scopes.getD []) ∧
      tok.scopes.Sorted strLeRel ∧
      tok.scopes.Nodup ∧
      (∀ s, s ∈ tok.scopes ↔
        ∃ v ∈ reqW.scopes.getD [], trimmedEntry v = some s)) ∧
    uniqSortedStrings (reqW.scopes.getD []) = ["chat"] ∧
    mergeScopes (recGet pairedC10 "dev-A") reqW = ["chat", "x"] ∧
    uniqSortedStrings (reqW.scopes.getD []) ≠
      mergeScopes (recGet pairedC10 "dev-A") reqW :=
  ⟨rotated_token_scopes_from_request pendW pairedC10 "r1" 2000 "tokval" reqW
      "dev-A" "operator" rfl (by decide) (by decide) (by decide) (by decide)
      (by decide),
    by decide, by decide, by decide⟩

theorem selfPairingTick_approved_inv (selfId : String) (obs : DaemonObs)
    (rid : String) (res : ApprovalResult)
    (h : selfPairingTick selfId obs = TickResult.approved rid res) :
    ∃ p, recGet obs.pending rid = some p ∧
      jsTrim (p.deviceId.getD "") = selfId ∧ res.deviceId = selfId := by
  unfold selfPairingTick at h
  by_cases hpaired : recHas obs.paired selfId = true
  · rw [if_pos hpaired] at h; cases h
  · rw [if_neg hpaired] at h
    cases hfind : (recKeys obs.pending).find?
        (fun id => decide (scanDeviceId obs.pending id = selfId)) with
    | none => rw [hfind] at h; cases h
    | some rid' =>
      rw [hfind] at h
      dsimp only [] at h
      cases hget : recGet obs.pending rid' with
      | none => rw [hget] at h; cases h
      | some p =>
        rw [hget] at h
        dsimp only [] at h
        by_cases hne : jsTrim (p.deviceId.getD "") ≠ selfId
        · rw [if_pos hne] at h; cases h
        · rw [if_neg hne] at h
          push_neg at hne
          cases happ : approvePairing obs.pending obs.paired rid' obs.now
              obs.freshToken with
          | error e => rw [happ] at h; cases h
          | ok res' =>
            rw [happ] at h
            dsimp only [] at h
            injection h with h1 h2
            subst h1
            subst h2
            refine ⟨p, hget, hne, ?_⟩
            obtain ⟨q, hq, hdev⟩ :=
              approvePairing_ok_deviceId _ _ _ _ _ _ happ
            rw [hget] at hq
            injection hq with hq'
            subst hq'
            rw [hdev, hne]

/-- Claim C2: over every sequence of store states the daemon's poll cycles
observe, every request a run of the lib-based self-approval daemon approves
and persists belongs to the daemon's own identity: its trimmed device id is
the daemon's device id, the approval result carries that device id, and a
pending request whose trimmed device id differs from the daemon's own is
never the approved one, whatever the poll order or insertion order. -/
theorem selfPairingRun_only_self (selfId : String) (trace : List DaemonObs)
    (rid : String) (res : ApprovalResult)
    (hself : selfId ≠ "")
    (hmem : (rid, res) ∈ selfPairingRun selfId trace) :
    res.deviceId = selfId ∧
    ∃ obs ∈ trace,
      selfPairingTick selfId obs = TickResult.approved rid res ∧
      (∃ p, recGet obs.pending rid = some p ∧
        jsTrim (p.deviceId.getD "") = selfId) ∧
      ∀ rid' p', recGet obs.pending rid' = some p' →
        jsTrim (p'.deviceId.getD "") ≠ selfId → rid' ≠ rid := by
  induction trace with
  | nil => cases hmem
  | cons obs rest ih =>
    unfold selfPairingRun at hmem
    cases htick : selfPairingTick selfId obs with
    | alreadyPaired => rw [htick] at hmem; cases hmem
    | noMatch =>
      rw [htick] at hmem
      obtain ⟨hdev, obs', hobs', hrest⟩ := ih hmem
      exact ⟨hdev, obs', List.mem_cons_of_mem _ hobs', hrest⟩
    | approved rid0 res0 =>
      rw [htick] at hmem
      rw [List.mem_singleton, Prod.ext_iff] at hmem
      obtain ⟨h1, h2⟩ := hmem
      subst h1
      subst h2
      obtain ⟨p, hget, htrim, hdev⟩ :=
        selfPairingTick_approved_inv selfId obs rid res htick
      refine ⟨hdev, obs, List.mem_cons_self _ _, htick, ⟨p, hget, htrim⟩, ?_⟩
      intro rid' p' hget' hne' heq
      subst heq
      rw [hget'] at hget
      injection hget with hget''
      subst hget''
      exact hne' htrim
    | failed e => rw [htick] at hmem; cases hmem

/-- A pending request from a different device, `dev-B`. -/
def reqOther : PendingRequest :=
  { requestId := "rx", deviceId := some "dev-B",
    role := some (JStr.str "viewer"), ts := 500 }

/-- One observed daemon state: a foreign request inserted before our own. -/
def obsW : DaemonObs :=
  { paired := [], pending := [("rx", reqOther), ("r1", reqW)], now := 2000,
    freshToken := "tokval" }

/-- The approval the daemon performs on `obsW`. -/
def resW : ApprovalResult :=
  match approvePairing obsW.pending obsW.paired "r1" obsW.now obsW.freshToken with
  | Except.ok r => r
  | Except.error _ =>
    { deviceId := "", updatedPendingById := [], updatedPairedByDeviceId := [] }

/-- Witness for C2: with a foreign request `rx` (device `dev-B`) inserted
before the daemon's own `r1` (device `dev-A`), the run approves `r1`,
never `rx`. -/
theorem selfPairingRun_only_self_witness :
    resW.deviceId = "dev-A" ∧
    ∃ obs ∈ [obsW],
      selfPairingTick "dev-A" obs = TickResult.approved "r1" resW ∧
      (∃ p, recGet obs.pending "r1" = some p ∧
        jsTrim (p.deviceId.getD "") = "dev-A") ∧
      ∀ rid' p', recGet obs.pending rid' = some p' →
        jsTrim (p'.deviceId.getD "") ≠ "dev-A" → rid' ≠ "r1" :=
  selfPairingRun_only_self "dev-A" [obsW] "r1" resW (by decide) (by decide)

/-- A request whose device id `bad id` (internal whitespace) matches the
node's own identity yet fails `approvePairing`'s format validation. -/
def reqC9 : PendingRequest :=
  { requestId := "r9", deviceId := some "bad id",
    role := some (JStr.str "operator"), ts := 1 }

/-- The daemon state observed in the C9 failing run. -/
def obsC9 : DaemonObs :=
  { paired := [], pending := [("r9", reqC9)], now := 10, freshToken := "tok" }

/-- Claim C9, evaluated at the failing input: when a cycle of the lib-based
self-approval daemon throws (here: the node's own device id fails
validation inside `approvePairing`), its `main().catch` handler sets
`process.exitCode = 1`, so the daemon terminates with a non-zero status —
the standalone bootstrap copy's handler sets `process.exitCode = 0`
instead, as the claim describes. -/
theorem libDaemon_nonzero_exit_on_failure :
    selfPairingTick "bad id" obsC9 =
      TickResult.failed ApproveError.invalidDeviceIdFormat ∧
    libDaemonExitCode (selfPairingTick "bad id" obsC9) = 1 ∧
    bootstrapDaemonExitCode (selfPairingTick "bad id" obsC9) = 0 ∧
    libDaemonExitCode (selfPairingTick "bad id" obsC9) ≠ 0 := by
  refine ⟨?_, ?_, ?_, ?_⟩ <;> decide

theorem buildProfile_time_independent (c : CodexAuth) (lr : Nat)
    (hlr : c.lastRefresh = some lr) (t t' : Nat) :
    buildProfile c t = buildProfile c t' := by
  simp only [buildProfile, hlr]

theorem profilesEqual_refl (p : AuthProfile) :
    profilesEqual (some p) p = true := by
  simp [profilesEqual]

theorem syncOnce_write_inv (codex : Option CodexAuth)
    (ex : Option AuthStoreJson) (now : Nat) (S : AuthStoreOut)
    (hw : syncOnce codex ex now = SyncResult.write S) :
    ∃ c p, codex = some c ∧ buildProfile c now = some p ∧
      profilesEqual (recGet (existingProfilesOf ex) profileId) p = false ∧
      S = { version := existingVersionOf ex,
            profiles := recInsert (existingProfilesOf ex) profileId p } := by
  cases codex with
  | none => simp only [syncOnce] at hw; cases hw
  | some c =>
    simp only [syncOnce] at hw
    cases hb : buildProfile c now with
    | none => rw [hb] at hw; cases hw
    | some p =>
      rw [hb] at hw
      dsimp only [] at hw
      by_cases he :
          profilesEqual (recGet (existingProfilesOf ex) profileId) p = true
      · rw [if_pos he] at hw; cases hw
      · rw [if_neg he] at hw
        injection hw with hw'
        have he' :
            profilesEqual (recGet (existingProfilesOf ex) profileId) p =
              false := by
          cases hpe :
            profilesEqual (recGet (existingProfilesOf ex) profileId) p
          · rfl
          · exact absurd hpe he
        exact ⟨c, p, rfl, hb, he', hw'.symm⟩

/-- Claim C6: the credential sync is idempotent — whenever the candidate
profile built from the source is field-for-field identical to the profile
stored under the fixed profile id, `syncOnce` skips the write; in
particular, after a cycle writes the store, running the cycle again over
an unchanged source (with a parseable `last_refresh`, so the candidate
does not depend on the current time) performs no write and leaves the
store contents identical. -/
theorem syncOnce_idempotent
    (c : CodexAuth) (ex : Option AuthStoreJson) (t1 t2 : Nat)
    (S : AuthStoreOut) (lr : Nat)
    (hlr : c.lastRefresh = some lr)
    (hw : syncOnce (some c) ex t1 = SyncResult.write S) :
    syncOnce (some c) (some (storeRoundTrip S)) t2 = SyncResult.skipUpToDate ∧
    ∀ (d : CodexAuth) (ex' : Option AuthStoreJson) (now : Nat)
      (p : AuthProfile),
      buildProfile d now = some p →
      profilesEqual (recGet (existingProfilesOf ex') profileId) p = true →
      syncOnce (some d) ex' now = SyncResult.skipUpToDate := by
  constructor
  · obtain ⟨c0, p, hc0, hb, hne, hS⟩ := syncOnce_write_inv _ _ _ _ hw
    injection hc0 with hc0'
    subst hc0'
    have hb2 : buildProfile c t2 = some p := by
      rw [buildProfile_time_independent c lr hlr t2 t1, hb]
    simp only [syncOnce, hb2]
    have hget : recGet (existingProfilesOf (some (storeRoundTrip S)))
        profileId = some p := by
      have hsp : existingProfilesOf (some (storeRoundTrip S)) = S.profiles :=
        rfl
      rw [hsp, hS]
      exact recGet_insert_self _ _ _
    rw [if_pos (by rw [hget]; exact profilesEqual_refl p)]
  · intro d ex' now p hb he
    simp only [syncOnce, hb]
    rw [if_pos he]

/-- A parsed codex source with both tokens and a parseable `last_refresh`. -/
def codexW : CodexAuth :=
  { tokens := some
      { accessToken := some "acc", refreshToken := some "ref",
        accountId := some "acct" },
    lastRefresh := some 1000 }

/-- The store the first sync cycle writes from `codexW` over no store. -/
def syncSW : AuthStoreOut :=
  match syncOnce (some codexW) none 5 with
  | SyncResult.write s => s
  | _ => { version := 0, profiles := [] }

/-- Witness for C6: after the first write, a second cycle over the same
source at a later time skips. -/
theorem syncOnce_idempotent_witness :
    syncOnce (some codexW) (some (storeRoundTrip syncSW)) 99 =
      SyncResult.skipUpToDate ∧
    ∀ (d : CodexAuth) (ex' : Option AuthStoreJson) (now : Nat)
      (p : AuthProfile),
      buildProfile d now = some p →
      profilesEqual (recGet (existingProfilesOf ex') profileId) p = true →
      syncOnce (some d) ex' now = SyncResult.skipUpToDate :=
  syncOnce_idempotent codexW none 5 99 syncSW 1000 rfl (by decide)

/-- Claim C7: every store `syncOnce` writes keeps the existing store's
version: the written version is the stored numeric version when one
exists, and the default `1` exactly when no store exists or its version
is not a number — an existing numeric version is never reset. -/
theorem syncOnce_preserves_version
    (codex : Option CodexAuth) (ex : Option AuthStoreJson) (now : Nat)
    (S : AuthStoreOut)
    (hw : syncOnce codex ex now = SyncResult.write S) :
    S.version = existingVersionOf ex ∧
    (∀ s v, ex = some s → s.version = some v → S.version = v) ∧
    ((ex = none ∨ ∃ s, ex = some s ∧ s.version = none) → S.version = 1) := by
  obtain ⟨c, p, hc, hb, hne, hS⟩ := syncOnce_write_inv codex ex now S hw
  have hv : S.version = existingVersionOf ex := by rw [hS]
  refine ⟨hv, ?_, ?_⟩
  · intro s v hex hsv
    rw [hv, hex]
    simp [existingVersionOf, hsv]
  · rintro (hex | ⟨s, hex, hsv⟩)
    · rw [hv, hex]; rfl
    · rw [hv, hex]; simp [existingVersionOf, hsv]

/-- An existing store with numeric version `7`. -/
def exC7 : AuthStoreJson := { version := some 7, profiles := some [] }

/-- The store a sync cycle writes over `exC7`. -/
def syncSC7 : AuthStoreOut :=
  match syncOnce (some codexW) (some exC7) 5 with
  | SyncResult.write s => s
  | _ => { version := 0, profiles := [] }

/-- Witness for C7: writing over a version-7 store keeps version 7. -/
theorem syncOnce_preserves_version_witness :
    syncSC7.version = existingVersionOf (some exC7) ∧
    (∀ s v, (some exC7 : Option AuthStoreJson) = some s →
      s.version = some v → syncSC7.version = v) ∧
    (((some exC7 : Option AuthStoreJson) = none ∨
      ∃ s, (some exC7 : Option AuthStoreJson) = some s ∧ s.version = none) →
      syncSC7.version = 1) :=
  syncOnce_preserves_version (some codexW) (some exC7) 5 syncSC7 (by decide)
